import Mathlib

/-!
Verification of the carwings session/request engine (Go package
`carwings`, current revision, together with its command-line front end
`cmd/carwings/main.go`).

The Go source is shallowly embedded: strings and raw JSON byte values
become `List Char`, byte slices become `List Nat`, fallible operations
return `Option` or `Except`, and the one stateful object (`Session`) is
passed explicitly.  The HTTP transport is abstracted as an oracle that
yields, for each wire exchange, the decoded outcome of that exchange;
everything after the point where the Go code has decoded the JSON body
is modelled faithfully from the source.
-/

set_option autoImplicit false

namespace Carwings

/-! ## Go `strconv.Atoi`, restricted to what the source relies on

`baseResponse.Status` calls `strconv.Atoi` and discards the error, so a
failed parse yields `0`.  `goAtoi` models `Atoi` on ASCII input: an
optional sign followed by decimal digits; any malformed input gives `0`
(the value Go returns alongside the discarded error). -/

def digitVal (c : Char) : Nat := c.toNat - '0'.toNat

def parseDigits : List Char → Option Nat
  | [] => none
  | cs =>
    if cs.all Char.isDigit then
      some (cs.foldl (fun acc c => acc * 10 + digitVal c) 0)
    else
      none

def goAtoi (s : List Char) : Int :=
  match s with
  | '-' :: rest => match parseDigits rest with
    | some n => -(n : Int)
    | none => 0
  | '+' :: rest => match parseDigits rest with
    | some n => (n : Int)
    | none => 0
  | _ => match parseDigits s with
    | some n => (n : Int)
    | none => 0

/-! ## The response envelope status (`baseResponse.Status`)

Go source:

  func (r *baseResponse) Status() int {
      s := r.StatusCode
      if s[0] == '"' {
          s = s[1 : len(s)-1]
      }
      v, _ := strconv.Atoi(string(s))
      return v
  }

`StatusCode` is the raw JSON bytes of the status field in the body; when the
field is absent from the body it is the nil slice, and `s[0]` panics
(index out of range), as does the reslice `s[1:len(s)-1]` when the raw
value is the single byte `"`.  Panics are modelled as `none`. -/

def baseResponseStatus : List Char → Option Int
  | [] => none
  | c :: rest =>
    if c = '"' then
      match rest with
      | [] => none
      | _ :: _ => some (goAtoi rest.dropLast)
    else
      some (goAtoi (c :: rest))

/-! ## Classification of one exchange (`apiRequest`, transport level)

Go source (current revision):

  switch s := target.Status(); s {
  case http.StatusOK:
      return nil
  case http.StatusUnauthorized, http.StatusRequestTimeout:
      return ErrNotLoggedIn
  default:
      if e := target.ErrorMessage(); e != "" {
          return fmt.Errorf("received status code %d (%s)", s, e)
      }
      return fmt.Errorf("received status code %d", s)
  }
-/

inductive GoError where
  | notLoggedIn
  | vehicleInfoUnavailable
  | updateFailed
  | netErr
  | decodeErr
  | backendError (code : Int) (msg : Option String)
  | timedOut (timeout : Nat)
deriving DecidableEq, Repr

inductive Outcome where
  | success
  | authExpired
  | backendError (code : Int) (msg : Option String)
deriving DecidableEq, Repr

deriving instance DecidableEq for Except

/-- Classification of a decoded status value together with the optional
message field, exactly as the `switch` in `apiRequest` decides it. -/
def classifyStatus (status : Int) (message : String) : Outcome :=
  if status = 200 then .success
  else if status = 401 ∨ status = 408 then .authExpired
  else .backendError status (if message = "" then none else some message)

/-- Classification applied to the raw JSON bytes of the status field:
`baseResponse.Status` followed by the `switch`; `none` when `Status`
panics. -/
def classifyRaw (raw : List Char) (message : String) : Option Outcome :=
  (baseResponseStatus raw).map (fun s => classifyStatus s message)

/-! ## The Session and the transport oracle

`Session` carries what the Go struct carries (minus the `*time.Location`
cache, which only mirrors `tz`).  One wire exchange is abstracted as an
`ExchangeResult`: either the HTTP call failed, or the JSON decode
failed, or a body was decoded, carrying the status value, the message
field, and (for the login endpoint) the vehicle-info payload.  A
transport is an oracle `Nat → ExchangeResult` indexed by the order in
which `Session.apiRequest` performs exchanges. -/

structure SessionSt where
  region : String
  username : String
  encpw : String
  vin : String
  customSessionID : String
  tz : String
deriving DecidableEq, Repr

structure VehicleInfo where
  vin : String
  customSessionID : String
deriving DecidableEq, Repr, Inhabited

/-- The login response payload, covering the four shapes that `Login`
in the current revision decodes: `vehicleInfo` (a list), `vehicleInfoList.vehicleInfo`
(a list), the flat `VehicleInfo` object, and `CustomerInfo.VehicleInfo`,
plus `CustomerInfo.Timezone`. -/
structure LoginBody where
  vehicleInfos : List VehicleInfo
  vehicleInfoListInfos : List VehicleInfo
  vehicleInfo : VehicleInfo
  customerInfoVehicleInfo : VehicleInfo
  customerInfoTimezone : String
deriving DecidableEq, Repr

inductive ExchangeResult where
  | netErr
  | decodeErr
  | resp (status : Int) (message : String) (body : LoginBody)
deriving DecidableEq, Repr

/-- One transport exchange as `apiRequest` (package-level) sees it: a
transport or decode failure propagates; otherwise the decoded body is
classified by its embedded status. -/
def classifyExchange : ExchangeResult → Except GoError LoginBody
  | .netErr => .error .netErr
  | .decodeErr => .error .decodeErr
  | .resp status message body =>
    match classifyStatus status message with
    | .success => .ok body
    | .authExpired => .error .notLoggedIn
    | .backendError code msg => .error (.backendError code msg)

/-! ## Request parameters (`url.Values` with `Set` semantics) -/

abbrev Params := List (String × String)

/-- Models `url.Values.Set`: replace the value at the key, or append the
binding when the key is absent. -/
def setParam (ps : Params) (k v : String) : Params :=
  if ps.any (fun p => p.1 = k) then
    ps.map (fun p => if p.1 = k then (k, v) else p)
  else
    ps ++ [(k, v)]

def getParam (ps : Params) (k : String) : Option String :=
  (ps.find? (fun p => p.1 = k)).map (fun p => p.2)

/-- Models `Session.setCommonParams`: inject region, VIN, session token
and timezone into the parameters of every call. -/
def setCommonParams (st : SessionSt) (ps : Params) : Params :=
  setParam (setParam (setParam (setParam ps "RegionCode" st.region)
    "VIN" st.vin) "custom_sessionid" st.customSessionID) "tz" st.tz

def initialAppStrings : String := "9s5rfKVuMrT03RtzajWNcA"

def loginParams (st : SessionSt) : Params :=
  [("initial_app_str", initialAppStrings), ("UserId", st.username),
   ("Password", st.encpw), ("RegionCode", st.region)]

/-! ## Login (current revision)

Go source:

  var vi vehicleInfo
  switch {
  case len(loginResp.VehicleInfos) > 0:
      vi = loginResp.VehicleInfos[0]
  case len(loginResp.VehicleInfoList.VehicleInfos) > 0:
      vi = loginResp.VehicleInfoList.VehicleInfos[0]
  case len(loginResp.CustomerInfo.VehicleInfo.VIN) > 0:
      vi = loginResp.CustomerInfo.VehicleInfo
  default:
      vi = loginResp.VehicleInfo
  }
  if vi.VIN == "" {
      return ErrVehicleInfoUnavailable
  }
-/

def selectVehicleInfo (b : LoginBody) : VehicleInfo :=
  if b.vehicleInfos.length > 0 then
    b.vehicleInfos.headD default
  else if b.vehicleInfoListInfos.length > 0 then
    b.vehicleInfoListInfos.headD default
  else if b.customerInfoVehicleInfo.vin.length > 0 then
    b.customerInfoVehicleInfo
  else
    b.vehicleInfo

/-- Models `Session.Login` from the decoded login exchange onward: the
classification error propagates, the vehicle-info shape is selected, an
empty selected VIN fails with `ErrVehicleInfoUnavailable`, and otherwise
the identity fields are adopted.  (The `time.LoadLocation` cache and the
optional `save` of a configured session file are side effects outside
the identity computation and are not modelled.) -/
def loginStep (e : ExchangeResult) (st : SessionSt) : Except GoError SessionSt :=
  match classifyExchange e with
  | .error err => .error err
  | .ok body =>
    let vi := selectVehicleInfo body
    if vi.vin = "" then
      .error .vehicleInfoUnavailable
    else
      .ok { st with customSessionID := vi.customSessionID, vin := vi.vin,
                    tz := body.customerInfoTimezone }

/-! ## `Session.apiRequest` (current revision)

Go source:

  func (s *Session) apiRequest(endpoint string, params url.Values, target response) error {
      params = s.setCommonParams(params)
      err := apiRequest(endpoint, params, target)
      if err == ErrNotLoggedIn {
          if err := s.Login(); err != nil {
              return err
          }
          params = s.setCommonParams(params)
          return apiRequest(endpoint, params, target)
      }
      return err
  }

The oracle index is the exchange order: index 0 is the first attempt of
the endpoint, index 1 the login call (when performed), index 2 the
retry (when performed).  Alongside the result, the list of wire
requests actually issued is returned, in order. -/

structure Request where
  endpoint : String
  params : Params
deriving DecidableEq, Repr

def loginEndpoint : String := "UserLoginRequest.php"

def sessionApiRequest (endpoint : String) (params : Params) (st : SessionSt)
    (t : Nat → ExchangeResult) : Except GoError SessionSt × List Request :=
  let p1 := setCommonParams st params
  let r1 : Request := ⟨endpoint, p1⟩
  match classifyExchange (t 0) with
  | .ok _ => (.ok st, [r1])
  | .error e =>
    if e = .notLoggedIn then
      let rl : Request := ⟨loginEndpoint, loginParams st⟩
      match loginStep (t 1) st with
      | .error e2 => (.error e2, [r1, rl])
      | .ok st2 =>
        let r2 : Request := ⟨endpoint, setCommonParams st2 p1⟩
        match classifyExchange (t 2) with
        | .ok _ => (.ok st2, [r1, rl, r2])
        | .error e3 => (.error e3, [r1, rl, r2])
    else
      (.error e, [r1])

/-! ## Session persistence and `Connect`

The `load` of the current revision:

  m := map[string]string{} ... decode ...
  s.VIN = m["vin"]
  s.customSessionID = m["customSessionID"]
  s.tz = m["tz"]

It adopts whatever the file holds; the only failures are opening or
JSON-decoding the file, modelled below as `rec = none`. -/

structure LoadRec where
  vin : String
  customSessionID : String
  tz : String
deriving DecidableEq, Repr

def sessionLoad (rec : Option LoadRec) (st : SessionSt) : Except GoError SessionSt :=
  match rec with
  | none => .error .decodeErr
  | some r =>
    .ok { st with vin := r.vin, customSessionID := r.customSessionID, tz := r.tz }

/-- Models the tail of `Connect` in the current revision (after the
`InitialApp_v2.php` bootstrap and password encryption have succeeded):

  if s.Filename != "" {
      if err := s.load(); err == nil {
          return nil
      } ...
  }
  return s.Login()

The login exchange `loginE` is only consumed when `Login` runs. -/
def connectLoadOrLogin (hasFile : Bool) (rec : Option LoadRec)
    (loginE : ExchangeResult) (st : SessionSt) : Except GoError SessionSt :=
  if hasFile then
    match sessionLoad rec st with
    | .ok st2 => .ok st2
    | .error _ => loginStep loginE st
  else
    loginStep loginE st

/-- Models `Connect` of the previous revision (file `carwings.go`, the
older API level kept in the repository):

  if cfg.SessionFile != "" {
      err = s.Load(cfg.SessionFile)
      if err == nil && s.customSessionID != "" && s.VIN != "" {
          return s, nil
      } ...
  }
  return s, s.connect()

The `Load` of that revision adopts the same three fields, and `Connect`
gates adoption on both identity fields being non-empty; otherwise it
falls through to the full login path `s.connect()`, abstracted here as
the `fallback` continuation on the post-`Load` state. -/
def connectPrevRevision (rec : Option LoadRec) (st : SessionSt)
    (fallback : SessionSt → Except GoError SessionSt) : Except GoError SessionSt :=
  match sessionLoad rec st with
  | .ok st2 =>
    if st2.customSessionID ≠ "" ∧ st2.vin ≠ "" then .ok st2 else fallback st2
  | .error _ => fallback st

/-! ## `CheckUpdate` (decode step)

Go source:

  if err := s.apiRequest("BatteryStatusCheckResultRequest.php", params, &resp); err != nil {
      return false, err
  }
  var err error
  if resp.OperationResult == electricWaveAbnormal {
      err = ErrUpdateFailed
  }
  return resp.ResponseFlag == 1, err

The outcome of the session request is abstracted as `apiRes`: either the
propagated error, or the decoded `(responseFlag, operationResult)`. -/

def electricWaveAbnormal : String := "ELECTRIC_WAVE_ABNORMAL"

def checkUpdateStep (apiRes : Except GoError (Int × String)) : Bool × Option GoError :=
  match apiRes with
  | .error e => (false, some e)
  | .ok (flag, opResult) =>
    (flag = 1, if opResult = electricWaveAbnormal then some .updateFailed else none)

/-! ## The poll loop (`waitForResult`, cmd/carwings/main.go)

Go source:

  func waitForResult(key string, timeout time.Duration, poll func(string) (bool, error)) error {
      time.Sleep(3 * time.Second)
      start := time.Now()
      for {
          done, err := poll(key)
          if done {
              break
          }
          if time.Since(start) > timeout {
              err = fmt.Errorf("timed out waiting %v for update", timeout)
          }
          if err != nil {
              return err
          }
          time.Sleep(3 * time.Second)
      }
      return nil
  }

Time is discretised in seconds.  The fixed initial delay (3s) happens
before `start` is taken, so the i-th poll call (0-based) observes
`time.Since(start) = pollInterval * i` and polls take no model time.
The loop is driven by a fuel argument; `waitForResult` supplies fuel
sufficient for the timeout check to fire, so `fuelOut` is unreachable
for the poll functions considered here. -/

def initialDelay : Nat := 3

def pollInterval : Nat := 3

inductive WaitResult where
  | success (iter : Nat)
  | failed (e : GoError) (iter : Nat)
  | fuelOut
deriving DecidableEq, Repr

def waitLoopAux (timeout : Nat) (poll : Nat → Bool × Option GoError) :
    Nat → Nat → WaitResult
  | 0, _ => .fuelOut
  | fuel + 1, i =>
    let o := poll i
    if o.1 then
      .success i
    else
      let err := if pollInterval * i > timeout then some (.timedOut timeout) else o.2
      match err with
      | some e => .failed e i
      | none => waitLoopAux timeout poll fuel (i + 1)

def waitForResult (timeout : Nat) (poll : Nat → Bool × Option GoError) : WaitResult :=
  waitLoopAux timeout poll (timeout / pollInterval + 2) 0

/-! ## Credential encryption (`pkcs5Padding` / `encrypt`)

Go source:

  func pkcs5Padding(data []byte, blocksize int) []byte {
      padLen := blocksize - (len(data) % blocksize)
      padding := bytes.Repeat([]byte{byte(padLen)}, padLen)
      return append(data, padding...)
  }

  func encrypt(s, key string) (string, error) {
      cipher, err := blowfish.NewCipher([]byte(key))
      if err != nil { return "", err }
      src := []byte(s)
      src = pkcs5Padding(src, cipher.BlockSize())
      dst := make([]byte, len(src))
      pos := 0
      for pos < len(src) {
          cipher.Encrypt(dst[pos:], src[pos:])
          pos += cipher.BlockSize()
      }
      return base64.StdEncoding.EncodeToString(dst), nil
  }

Bytes are `Nat`s.  The Blowfish core lives in the external library
`golang.org/x/crypto/blowfish`; only its interface is relied on here:
`NewCipher` fails exactly when the key length is outside 1..56,
`BlockSize()` is 8, and `Encrypt` writes exactly one 8-byte block.  The
block function is therefore a parameter `E`, constrained in the
theorems to map 8-byte blocks to 8-byte blocks. -/

def blowfishBlockSize : Nat := 8

def blowfishKeyOk (keyLen : Nat) : Bool := 1 ≤ keyLen && keyLen ≤ 56

def pkcs5Padding (data : List Nat) (blocksize : Nat) : List Nat :=
  let padLen := blocksize - data.length % blocksize
  data ++ List.replicate padLen padLen

def ecbEncrypt (E : List Nat → List Nat) : List Nat → List Nat
  | [] => []
  | b :: src =>
    E ((b :: src).take blowfishBlockSize) ++ ecbEncrypt E ((b :: src).drop blowfishBlockSize)
termination_by src => src.length
decreasing_by simp [blowfishBlockSize]; omega

/-! Standard base64 (`base64.StdEncoding.EncodeToString`): 3-byte groups
become 4 alphabet characters; a trailing group of 1 or 2 bytes is
padded with `=`. -/

def b64Alphabet : List Char :=
  "ABCDEFGHIJKLMNOPQRSTUVWXYZabcdefghijklmnopqrstuvwxyz0123456789+/".toList

def b64Char (n : Nat) : Char := b64Alphabet.getD n 'A'

def base64Encode : List Nat → List Char
  | [] => []
  | [a] => [b64Char (a / 4 % 64), b64Char (a % 4 * 16), '=', '=']
  | [a, b] => [b64Char (a / 4 % 64), b64Char ((a % 4 * 16 + b / 16) % 64), b64Char (b % 16 * 4), '=']
  | a :: b :: c :: rest =>
    [b64Char (a / 4 % 64), b64Char ((a % 4 * 16 + b / 16) % 64),
     b64Char ((b % 16 * 4 + c / 64) % 64), b64Char (c % 64)] ++ base64Encode rest

/-- The byte length a standard base64 decoder recovers from an encoded
string: three bytes per 4-character group, minus one per `=` pad. -/
def base64DecodedLength (s : List Char) : Nat :=
  3 * (s.length / 4) - s.count '='

/-- Models `encrypt`: `none` exactly when `blowfish.NewCipher` rejects
the key length; otherwise pad, ECB-encrypt block by block with the
block function `E`, and base64-encode. -/
def encrypt (E : List Nat → List Nat) (keyLen : Nat) (s : List Nat) : Option (List Char) :=
  if blowfishKeyOk keyLen then
    some (base64Encode (ecbEncrypt E (pkcs5Padding s blowfishBlockSize)))
  else
    none

/-! ## Backend timestamp decoding (`cwTime.UnmarshalJSON`)

Go source (current revision) tries five `time.Parse` layouts in order,
returning on the first success, after short-circuiting the empty JSON
string:

  if data == nil || string(data) == `""` { return nil }
  layouts, in order:
    `"2006\/01\/02 15:04"`
    `"2006-01-02 15:04:05"`
    `"2006-01-02T15:04:05Z"`
    `"2006-01-02T15:04:05"`
    `"Jan _2, 2006 03:04 PM"`
  otherwise: fmt.Errorf("cannot parse %q as carwings time", string(data))

The layouts include the JSON double quotes, so each parser consumes the
quoted raw bytes in full.  Go reference-time layout elements used here:
`2006` is a fixed 4-digit year; `01`, `02`, `04`, `05` and `03` are
fixed 2-digit fields (`03` additionally range-checked to at most 12);
`15` accepts one or two digits; `_2` skips one optional leading space
and accepts one or two digits; `Jan` matches a 3-letter month
abbreviation case-insensitively; `PM` matches `PM` or `AM`; every other
layout byte (including the `\` before each `/` in the first layout)
must match literally; the whole value must be consumed; and the final
date is range-checked (month 1..12, day within the month, hour at most
23, minute and second at most 59). -/

structure CwDateTime where
  year : Nat
  month : Nat
  day : Nat
  hour : Nat
  minute : Nat
  second : Nat
deriving DecidableEq, Repr

/-- Fixed two-digit numeric layout element (for example `01`). -/
def parse2 : List Char → Option (Nat × List Char)
  | a :: b :: rest =>
    if a.isDigit ∧ b.isDigit then some (digitVal a * 10 + digitVal b, rest) else none
  | _ => none

/-- Fixed four-digit numeric layout element (`2006`). -/
def parse4 : List Char → Option (Nat × List Char)
  | a :: b :: c :: d :: rest =>
    if a.isDigit ∧ b.isDigit ∧ c.isDigit ∧ d.isDigit then
      some (digitVal a * 1000 + digitVal b * 100 + digitVal c * 10 + digitVal d, rest)
    else none
  | _ => none

/-- Non-padded numeric layout element (`15`): one digit, or two when a
second digit follows. -/
def parse1or2 : List Char → Option (Nat × List Char)
  | [] => none
  | [a] => if a.isDigit then some (digitVal a, []) else none
  | a :: b :: rest =>
    if a.isDigit then
      if b.isDigit then some (digitVal a * 10 + digitVal b, rest)
      else some (digitVal a, b :: rest)
    else none

def expectChar (c : Char) : List Char → Option (List Char)
  | x :: rest => if x = c then some rest else none
  | [] => none

def isLeapYear (y : Nat) : Bool := y % 4 = 0 && (y % 100 ≠ 0 || y % 400 = 0)

def daysIn (month year : Nat) : Nat :=
  if month = 2 then (if isLeapYear year then 29 else 28)
  else if month = 4 ∨ month = 6 ∨ month = 9 ∨ month = 11 then 30
  else 31

/-- The final range validation `time.Parse` applies to the collected
date fields. -/
def validDate (t : CwDateTime) : Bool :=
  1 ≤ t.month && t.month ≤ 12 && 1 ≤ t.day && t.day ≤ daysIn t.month t.year &&
    t.hour ≤ 23 && t.minute ≤ 59 && t.second ≤ 59

def checkedDate (t : CwDateTime) (rest : List Char) : Option CwDateTime :=
  if rest = [] ∧ validDate t then some t else none

/-- Layout `"2006\/01\/02 15:04"` (slash-delimited, minute precision;
the raw JSON carries escaped slashes, matched literally). -/
def parseSlashMinute (s : List Char) : Option CwDateTime := do
  let s ← expectChar '"' s
  let (y, s) ← parse4 s
  let s ← expectChar '\\' s
  let s ← expectChar '/' s
  let (mo, s) ← parse2 s
  let s ← expectChar '\\' s
  let s ← expectChar '/' s
  let (d, s) ← parse2 s
  let s ← expectChar ' ' s
  let (h, s) ← parse1or2 s
  let s ← expectChar ':' s
  let (mi, s) ← parse2 s
  let s ← expectChar '"' s
  checkedDate ⟨y, mo, d, h, mi, 0⟩ s

/-- Layout `"2006-01-02 15:04:05"` (space-delimited, second precision). -/
def parseSpaceSecond (s : List Char) : Option CwDateTime := do
  let s ← expectChar '"' s
  let (y, s) ← parse4 s
  let s ← expectChar '-' s
  let (mo, s) ← parse2 s
  let s ← expectChar '-' s
  let (d, s) ← parse2 s
  let s ← expectChar ' ' s
  let (h, s) ← parse1or2 s
  let s ← expectChar ':' s
  let (mi, s) ← parse2 s
  let s ← expectChar ':' s
  let (sec, s) ← parse2 s
  let s ← expectChar '"' s
  checkedDate ⟨y, mo, d, h, mi, sec⟩ s

/-- Layout `"2006-01-02T15:04:05Z"` (ISO-8601 with trailing Z, a
literal layout byte). -/
def parseIsoZ (s : List Char) : Option CwDateTime := do
  let s ← expectChar '"' s
  let (y, s) ← parse4 s
  let s ← expectChar '-' s
  let (mo, s) ← parse2 s
  let s ← expectChar '-' s
  let (d, s) ← parse2 s
  let s ← expectChar 'T' s
  let (h, s) ← parse1or2 s
  let s ← expectChar ':' s
  let (mi, s) ← parse2 s
  let s ← expectChar ':' s
  let (sec, s) ← parse2 s
  let s ← expectChar 'Z' s
  let s ← expectChar '"' s
  checkedDate ⟨y, mo, d, h, mi, sec⟩ s

/-- Layout `"2006-01-02T15:04:05"` (ISO-8601 without trailing Z). -/
def parseIsoNoZ (s : List Char) : Option CwDateTime := do
  let s ← expectChar '"' s
  let (y, s) ← parse4 s
  let s ← expectChar '-' s
  let (mo, s) ← parse2 s
  let s ← expectChar '-' s
  let (d, s) ← parse2 s
  let s ← expectChar 'T' s
  let (h, s) ← parse1or2 s
  let s ← expectChar ':' s
  let (mi, s) ← parse2 s
  let s ← expectChar ':' s
  let (sec, s) ← parse2 s
  let s ← expectChar '"' s
  checkedDate ⟨y, mo, d, h, mi, sec⟩ s

/-- The twelve short month names of the reference layout, lowercased. -/
def monthAbbrevsLower : List (List Char) :=
  [['j', 'a', 'n'], ['f', 'e', 'b'], ['m', 'a', 'r'], ['a', 'p', 'r'],
   ['m', 'a', 'y'], ['j', 'u', 'n'], ['j', 'u', 'l'], ['a', 'u', 'g'],
   ['s', 'e', 'p'], ['o', 'c', 't'], ['n', 'o', 'v'], ['d', 'e', 'c']]

/-- Month-name layout element `Jan`: a 3-letter abbreviation, matched
case-insensitively as the Go name lookup does. -/
def parseMonthName : List Char → Option (Nat × List Char)
  | a :: b :: c :: rest =>
    match monthAbbrevsLower.findIdx? (fun m => m = [a.toLower, b.toLower, c.toLower]) with
    | some i => some (i + 1, rest)
    | none => none
  | _ => none

/-- Layout element `_2`: one optional leading space, then one or two
digits. -/
def parseUnderDay : List Char → Option (Nat × List Char)
  | ' ' :: rest => parse1or2 rest
  | s => parse1or2 s

/-- Layout `"Jan _2, 2006 03:04 PM"` (human month-name format).  The
hour field is fixed two-digit, range-checked to at most 12, and
converted from 12-hour to 24-hour by the `PM`/`AM` marker as
`time.Parse` does. -/
def parseMonthNameFormat (s : List Char) : Option CwDateTime := do
  let s ← expectChar '"' s
  let (mo, s) ← parseMonthName s
  let s ← expectChar ' ' s
  let (d, s) ← parseUnderDay s
  let s ← expectChar ',' s
  let s ← expectChar ' ' s
  let (y, s) ← parse4 s
  let s ← expectChar ' ' s
  let (h12, s) ← parse2 s
  if h12 > 12 then none else
  let s ← expectChar ':' s
  let (mi, s) ← parse2 s
  let s ← expectChar ' ' s
  match s with
  | 'P' :: 'M' :: s =>
    let h := if h12 < 12 then h12 + 12 else h12
    let s ← expectChar '"' s
    checkedDate ⟨y, mo, d, h, mi, 0⟩ s
  | 'A' :: 'M' :: s =>
    let h := if h12 = 12 then 0 else h12
    let s ← expectChar '"' s
    checkedDate ⟨y, mo, d, h, mi, 0⟩ s
  | _ => none

/-- The Go `%q` verb applied to the raw bytes: wrap in double quotes, escaping
embedded quotes and backslashes.  (The library escapes further
non-printable bytes; the raw timestamp strings at issue are printable
ASCII.) -/
def goQuoteChar (c : Char) : List Char :=
  if c = '"' then ['\\', '"']
  else if c = '\\' then ['\\', '\\']
  else [c]

def goQuote (s : List Char) : List Char :=
  '"' :: (s.map goQuoteChar).flatten ++ ['"']

def cwTimeParseError (data : List Char) : List Char :=
  "cannot parse ".toList ++ goQuote data ++ " as carwings time".toList

/-- Models `cwTime.UnmarshalJSON` on the raw JSON bytes of the value:
`ok none` is the untouched zero value (the absent sentinel), `ok (some t)`
a parsed instant, `error msg` the formatted parse failure. -/
def cwTimeUnmarshal (data : List Char) : Except (List Char) (Option CwDateTime) :=
  if data = ['"', '"'] then .ok none
  else match parseSlashMinute data with
  | some t => .ok (some t)
  | none => match parseSpaceSecond data with
    | some t => .ok (some t)
    | none => match parseIsoZ data with
      | some t => .ok (some t)
      | none => match parseIsoNoZ data with
        | some t => .ok (some t)
        | none => match parseMonthNameFormat data with
          | some t => .ok (some t)
          | none => .error (cwTimeParseError data)

/-! ## Concrete inputs used as test vectors below -/

/-- A session with a fully populated identity. -/
def exSession : SessionSt :=
  ⟨"NNA", "user", "encpw", "VIN0", "SID0", "America/New_York"⟩

/-- An empty login body (every shape empty). -/
def exEmptyBody : LoginBody := ⟨[], [], ⟨"", ""⟩, ⟨"", ""⟩, ""⟩

/-- A login body whose first (list-shaped) field holds a usable
vehicle record. -/
def exGoodLoginBody : LoginBody :=
  ⟨[⟨"VINX", "SIDX"⟩], [], ⟨"", ""⟩, ⟨"", ""⟩, "UTC"⟩

/-- A login body whose first shape is a non-empty list carrying an
empty VIN while the second shape carries a non-empty VIN. -/
def exShadowedBody : LoginBody :=
  ⟨[⟨"", "x"⟩], [⟨"V", "y"⟩], ⟨"", ""⟩, ⟨"", ""⟩, "UTC"⟩

/-- A transport on which every exchange decodes with status 401. -/
def exAlwaysExpired : Nat → ExchangeResult := fun _ => .resp 401 "" exEmptyBody

/-- A transport on which the endpoint exchanges (indices 0 and 2)
decode with status 401 while the login exchange (index 1) succeeds. -/
def exEndpointExpired : Nat → ExchangeResult := fun i =>
  if i = 1 then .resp 200 "" exGoodLoginBody else .resp 401 "" exEmptyBody

/-- A transport on which the first exchange decodes with status 401 and
every later exchange succeeds. -/
def exExpiredOnce : Nat → ExchangeResult := fun i =>
  if i = 0 then .resp 401 "" exEmptyBody else .resp 200 "" exGoodLoginBody

/-- The identity `exSession` acquires by logging in against
`exGoodLoginBody`. -/
def exSessionAfterLogin : SessionSt :=
  ⟨"NNA", "user", "encpw", "VINX", "SIDX", "UTC"⟩

/-- A persisted session record with a populated session token and an
empty vehicle identifier. -/
def exPartialRec : LoadRec := ⟨"", "X", "UTC"⟩

/-- The partial identity `exSession` holds after adopting
`exPartialRec`. -/
def exPartialLoaded : SessionSt := ⟨"NNA", "user", "encpw", "", "X", "UTC"⟩

/-! # Theorems -/

/-- C10: `baseResponse.Status` reads byte 0 of the raw status field
unconditionally, so it is well-defined only when the body carried a
status field; on the empty raw value the access is out of bounds
(modelled as `none`), and under that precondition a quoted numeric
string and the bare number yield the same integer status. -/
theorem baseResponse_status_first_byte :
    baseResponseStatus [] = none ∧
    (∀ s : List Char, s ≠ [] → (∀ c ∈ s, c.isDigit) →
      baseResponseStatus ('"' :: s ++ ['"']) = baseResponseStatus s ∧
      baseResponseStatus s = some (goAtoi s)) := by
  refine ⟨rfl, ?_⟩
  intro s hne hdig
  match s, hne with
  | c :: cs, _ =>
    have hc : c.isDigit := hdig c (by simp)
    have hcq : ¬(c = '"') := by
      intro h
      rw [h] at hc
      simp [Char.isDigit] at hc
    have hquoted :
        baseResponseStatus ('"' :: (c :: cs) ++ ['"']) = some (goAtoi (c :: cs)) := by
      show baseResponseStatus ('"' :: ((c :: cs) ++ ['"'])) = _
      simp only [baseResponseStatus, List.cons_append, reduceIte]
      rw [show c :: (cs ++ ['"']) = (c :: cs) ++ ['"'] from rfl, List.dropLast_concat]
    have hbare : baseResponseStatus (c :: cs) = some (goAtoi (c :: cs)) := by
      simp only [baseResponseStatus, hcq, reduceIte, if_neg hcq]
    exact ⟨by rw [hquoted, hbare], hbare⟩

/-- C10 witness: at the concrete raw values 200 and quoted 200 the two
encodings agree and the empty raw value is undefined. -/
theorem baseResponse_status_first_byte_witness :
    baseResponseStatus [] = none ∧
    baseResponseStatus ('"' :: "200".toList ++ ['"']) = baseResponseStatus "200".toList ∧
    baseResponseStatus "200".toList = some 200 := by
  have h := baseResponse_status_first_byte
  have h2 := h.2 "200".toList (by decide) (by decide)
  exact ⟨h.1, h2.1, by rw [h2.2]; decide⟩

/-- C2: the embedded status value decides classification, with quoted
numeric strings accepted alongside bare numbers: 200 is success, 401 or
408 is the authentication-expired signal, and any other value is a
backend error carrying the code and, when the optional message field is
non-empty, the message. -/
theorem status_classification :
    (∀ msg : String, classifyStatus 200 msg = .success) ∧
    (∀ msg : String, classifyStatus 401 msg = .authExpired ∧
      classifyStatus 408 msg = .authExpired) ∧
    (∀ (n : Int) (msg : String), n ≠ 200 → n ≠ 401 → n ≠ 408 →
      classifyStatus n msg = .backendError n (if msg = "" then none else some msg)) ∧
    (classifyRaw "200".toList "" = some .success ∧
     classifyRaw "\"200\"".toList "" = some .success ∧
     classifyRaw "401".toList "" = some .authExpired ∧
     classifyRaw "408".toList "" = some .authExpired ∧
     classifyRaw "500".toList "" = some (.backendError 500 none)) := by
  refine ⟨fun msg => rfl, fun msg => ⟨rfl, rfl⟩, ?_, by decide⟩
  intro n msg h200 h401 h408
  simp [classifyStatus, h200, h401, h408]

/-- C2 witness: a concrete non-success status with a non-empty message
classifies as a backend error carrying both. -/
theorem status_classification_witness :
    classifyStatus 500 "boom" = .backendError 500 (some "boom") := by
  have h := status_classification.2.2.1 500 "boom" (by decide) (by decide) (by decide)
  simpa using h

/-! ### Parameter injection lemmas -/

theorem find_map_setParam (k v : String) :
    ∀ ps : Params, ps.any (fun p => p.1 = k) →
      (ps.map (fun p => if p.1 = k then (k, v) else p)).find? (fun p => p.1 = k) =
        some (k, v) := by
  intro ps h
  induction ps with
  | nil => simp at h
  | cons p rest ih =>
    by_cases hp : p.1 = k
    · simp only [List.map_cons, if_pos hp, List.find?_cons]
      simp
    · simp only [List.map_cons, if_neg hp, List.find?_cons]
      have hd : (decide (p.1 = k)) = false := by simp [hp]
      rw [hd]
      apply ih
      simpa [List.any_cons, hp] using h

theorem getParam_setParam_self (ps : Params) (k v : String) :
    getParam (setParam ps k v) k = some v := by
  unfold setParam getParam
  by_cases h : ps.any (fun p => p.1 = k)
  · rw [if_pos h, find_map_setParam k v ps h]
    rfl
  · rw [if_neg h, List.find?_append]
    have hnone : ps.find? (fun p => p.1 = k) = none := by
      rw [List.find?_eq_none]
      intro x hx
      simp only [List.any_eq_true] at h
      simpa using fun hxk => h ⟨x, hx, by simpa using hxk⟩
    simp [hnone]

theorem find_map_setParam_ne (k v k2 : String) (h : k2 ≠ k) :
    ∀ ps : Params,
      ((ps.map (fun p => if p.1 = k then (k, v) else p)).find?
          (fun p => p.1 = k2)).map (fun p => p.2) =
        (ps.find? (fun p => p.1 = k2)).map (fun p => p.2) := by
  intro ps
  induction ps with
  | nil => rfl
  | cons p rest ih =>
    simp only [List.map_cons, List.find?_cons]
    by_cases hp : p.1 = k
    · have hne : ¬((k : String) = k2) := fun hk => h hk.symm
      have hp2 : ¬(p.1 = k2) := by rw [hp]; exact hne
      rw [if_pos hp]
      have hd1 : (decide ((k, v).1 = k2)) = false := by simp [hne]
      have hd2 : (decide (p.1 = k2)) = false := by simp [hp2]
      rw [hd1, hd2]
      exact ih
    · rw [if_neg hp]
      by_cases hp2 : p.1 = k2
      · have hd : (decide (p.1 = k2)) = true := by simp [hp2]
        rw [hd]
      · have hd : (decide (p.1 = k2)) = false := by simp [hp2]
        rw [hd]
        exact ih

theorem getParam_setParam_ne (ps : Params) (k v k2 : String) (h : k2 ≠ k) :
    getParam (setParam ps k v) k2 = getParam ps k2 := by
  unfold setParam getParam
  by_cases hany : ps.any (fun p => p.1 = k)
  · rw [if_pos hany]
    exact find_map_setParam_ne k v k2 h ps
  · rw [if_neg hany, List.find?_append]
    cases hfind : ps.find? (fun p => p.1 = k2) with
    | some q => simp [hfind]
    | none =>
      have hne : ¬((k : String) = k2) := fun hk => h hk.symm
      simp [hfind, hne]

theorem getParam_setCommonParams (st : SessionSt) (ps : Params) :
    getParam (setCommonParams st ps) "custom_sessionid" = some st.customSessionID ∧
    getParam (setCommonParams st ps) "VIN" = some st.vin ∧
    getParam (setCommonParams st ps) "tz" = some st.tz ∧
    getParam (setCommonParams st ps) "RegionCode" = some st.region := by
  unfold setCommonParams
  refine ⟨?_, ?_, ?_, ?_⟩
  · rw [getParam_setParam_ne _ _ _ _ (by decide), getParam_setParam_self]
  · rw [getParam_setParam_ne _ _ _ _ (by decide),
      getParam_setParam_ne _ _ _ _ (by decide), getParam_setParam_self]
  · rw [getParam_setParam_self]
  · rw [getParam_setParam_ne _ _ _ _ (by decide),
      getParam_setParam_ne _ _ _ _ (by decide),
      getParam_setParam_ne _ _ _ _ (by decide), getParam_setParam_self]

/-! ### Evaluation lemmas for `Session.apiRequest`, one per control path -/

theorem sessionApiRequest_ok (endpoint : String) (params : Params) (st : SessionSt)
    (t : Nat → ExchangeResult) (b : LoginBody) (h0 : classifyExchange (t 0) = .ok b) :
    sessionApiRequest endpoint params st t =
      (.ok st, [⟨endpoint, setCommonParams st params⟩]) := by
  unfold sessionApiRequest
  rw [h0]

theorem sessionApiRequest_hardErr (endpoint : String) (params : Params) (st : SessionSt)
    (t : Nat → ExchangeResult) (e : GoError) (h0 : classifyExchange (t 0) = .error e)
    (hne : e ≠ .notLoggedIn) :
    sessionApiRequest endpoint params st t =
      (.error e, [⟨endpoint, setCommonParams st params⟩]) := by
  unfold sessionApiRequest
  rw [h0]
  simp only [if_neg hne]

theorem sessionApiRequest_loginErr (endpoint : String) (params : Params) (st : SessionSt)
    (t : Nat → ExchangeResult) (e2 : GoError)
    (h0 : classifyExchange (t 0) = .error .notLoggedIn)
    (h1 : loginStep (t 1) st = .error e2) :
    sessionApiRequest endpoint params st t =
      (.error e2, [⟨endpoint, setCommonParams st params⟩, ⟨loginEndpoint, loginParams st⟩]) := by
  unfold sessionApiRequest
  rw [h0]
  simp only [if_pos rfl]
  rw [h1]
  simp

theorem sessionApiRequest_retried (endpoint : String) (params : Params) (st : SessionSt)
    (t : Nat → ExchangeResult) (st2 : SessionSt)
    (h0 : classifyExchange (t 0) = .error .notLoggedIn)
    (h1 : loginStep (t 1) st = .ok st2) :
    sessionApiRequest endpoint params st t =
      ((match classifyExchange (t 2) with
        | .ok _ => .ok st2
        | .error e => .error e),
       [⟨endpoint, setCommonParams st params⟩,
        ⟨loginEndpoint, loginParams st⟩,
        ⟨endpoint, setCommonParams st2 (setCommonParams st params)⟩]) := by
  unfold sessionApiRequest
  rw [h0]
  simp only [if_pos rfl]
  rw [h1]
  cases h2 : classifyExchange (t 2) with
  | ok b2 => rfl
  | error e3 => rfl

/-- C1: for every endpoint call through `Session.apiRequest`, at most
three wire exchanges occur (so the call never loops); on a first
authentication-expired classification followed by a successful
re-login, exactly one retry of the same endpoint is issued with the
common parameters freshly injected from the post-login identity; a
second authentication-expired classification on the retry is returned
as a hard failure after exactly two endpoint attempts plus the one
login call; and when every exchange classifies as
authentication-expired the call fails after exactly two wire exchanges
in total. -/
theorem apiRequest_retry_discipline (endpoint : String) (params : Params)
    (st : SessionSt) (t : Nat → ExchangeResult) :
    ((sessionApiRequest endpoint params st t).2.length ≤ 3) ∧
    (∀ b, classifyExchange (t 0) = .ok b →
      sessionApiRequest endpoint params st t =
        (.ok st, [⟨endpoint, setCommonParams st params⟩])) ∧
    (∀ st2, classifyExchange (t 0) = .error .notLoggedIn →
      loginStep (t 1) st = .ok st2 →
      sessionApiRequest endpoint params st t =
        ((match classifyExchange (t 2) with
          | .ok _ => .ok st2
          | .error e => .error e),
         [⟨endpoint, setCommonParams st params⟩,
          ⟨loginEndpoint, loginParams st⟩,
          ⟨endpoint, setCommonParams st2 (setCommonParams st params)⟩]) ∧
      getParam (setCommonParams st2 (setCommonParams st params)) "custom_sessionid" =
        some st2.customSessionID ∧
      getParam (setCommonParams st2 (setCommonParams st params)) "VIN" = some st2.vin) ∧
    (∀ st2, classifyExchange (t 0) = .error .notLoggedIn →
      loginStep (t 1) st = .ok st2 →
      classifyExchange (t 2) = .error .notLoggedIn →
      (sessionApiRequest endpoint params st t).1 = .error .notLoggedIn ∧
      (sessionApiRequest endpoint params st t).2.length = 3) ∧
    ((∀ i, classifyExchange (t i) = .error .notLoggedIn) →
      (sessionApiRequest endpoint params st t).1 = .error .notLoggedIn ∧
      (sessionApiRequest endpoint params st t).2.length = 2) := by
  refine ⟨?_, ?_, ?_, ?_, ?_⟩
  · cases h0 : classifyExchange (t 0) with
    | ok b => rw [sessionApiRequest_ok endpoint params st t b h0]; simp
    | error e =>
      by_cases he : e = GoError.notLoggedIn
      · subst he
        cases h1 : loginStep (t 1) st with
        | error e2 => rw [sessionApiRequest_loginErr endpoint params st t e2 h0 h1]; simp
        | ok st2 => rw [sessionApiRequest_retried endpoint params st t st2 h0 h1]; simp
      · rw [sessionApiRequest_hardErr endpoint params st t e h0 he]; simp
  · intro b h0
    exact sessionApiRequest_ok endpoint params st t b h0
  · intro st2 h0 h1
    exact ⟨sessionApiRequest_retried endpoint params st t st2 h0 h1,
      (getParam_setCommonParams st2 (setCommonParams st params)).1,
      (getParam_setCommonParams st2 (setCommonParams st params)).2.1⟩
  · intro st2 h0 h1 h2
    rw [sessionApiRequest_retried endpoint params st t st2 h0 h1, h2]
    exact ⟨rfl, rfl⟩
  · intro hall
    have h1 : loginStep (t 1) st = .error .notLoggedIn := by
      unfold loginStep
      rw [hall 1]
    rw [sessionApiRequest_loginErr endpoint params st t .notLoggedIn (hall 0) h1]
    exact ⟨rfl, rfl⟩

/-- C1 witness: against a transport whose endpoint exchanges both
classify as authentication-expired while the login succeeds, the call
fails hard after the two endpoint attempts plus one login call. -/
theorem apiRequest_retry_discipline_witness :
    (sessionApiRequest "BatteryStatusCheckRequest.php" [] exSession exEndpointExpired).1 =
      .error .notLoggedIn ∧
    (sessionApiRequest "BatteryStatusCheckRequest.php" [] exSession exEndpointExpired).2.length = 3 :=
  (apiRequest_retry_discipline "BatteryStatusCheckRequest.php" [] exSession
    exEndpointExpired).2.2.2.1 exSessionAfterLogin (by decide) (by decide) (by decide)

/-- C3 counterexample: against a transport on which every exchange
classifies as authentication-expired, `Session.apiRequest` returns
`ErrNotLoggedIn` to its caller, so the signal does cross the Session
boundary. -/
theorem authExpired_surfaces_counterexample :
    (sessionApiRequest "BatteryStatusCheckRequest.php" [] exSession exAlwaysExpired).1 =
      .error .notLoggedIn := by
  decide

/-- C3 amended: the authentication-expired classification is consumed
by the retry logic on the first attempt, so it reaches the caller only
after a re-login was attempted: whenever `Session.apiRequest` returns
`ErrNotLoggedIn`, the first exchange classified as
authentication-expired and at least one login call was issued (the
surfaced error coming from the re-login or from the retry). -/
theorem authExpired_surfaced_only_after_relogin (endpoint : String) (params : Params)
    (st : SessionSt) (t : Nat → ExchangeResult)
    (h : (sessionApiRequest endpoint params st t).1 = .error .notLoggedIn) :
    classifyExchange (t 0) = .error .notLoggedIn ∧
    2 ≤ (sessionApiRequest endpoint params st t).2.length := by
  cases h0 : classifyExchange (t 0) with
  | ok b =>
    rw [sessionApiRequest_ok endpoint params st t b h0] at h
    simp at h
  | error e =>
    by_cases he : e = GoError.notLoggedIn
    · subst he
      refine ⟨rfl, ?_⟩
      cases h1 : loginStep (t 1) st with
      | error e2 => rw [sessionApiRequest_loginErr endpoint params st t e2 h0 h1]; simp
      | ok st2 => rw [sessionApiRequest_retried endpoint params st t st2 h0 h1]; simp
    · rw [sessionApiRequest_hardErr endpoint params st t e h0 he] at h
      simp only [Except.error.injEq] at h
      exact absurd h he

/-- C3 amended witness: the always-expired transport satisfies the
hypothesis, and indeed its first exchange classified as expired with a
login call on the trace. -/
theorem authExpired_surfaced_only_after_relogin_witness :
    classifyExchange (exAlwaysExpired 0) = .error .notLoggedIn ∧
    2 ≤ (sessionApiRequest "BatteryStatusCheckRequest.php" [] exSession exAlwaysExpired).2.length :=
  authExpired_surfaced_only_after_relogin "BatteryStatusCheckRequest.php" [] exSession
    exAlwaysExpired (by decide)

/-! ### The poll loop under a never-completing poll function -/

theorem waitLoopAux_neverDone (timeout : Nat) (poll : Nat → Bool × Option GoError)
    (hpoll : ∀ i, poll i = (false, none)) :
    ∀ fuel i, pollInterval * i ≤ timeout + pollInterval →
      timeout + pollInterval < pollInterval * i + pollInterval * fuel →
      ∃ j, waitLoopAux timeout poll fuel i = .failed (.timedOut timeout) j ∧
        timeout < pollInterval * j ∧ pollInterval * j ≤ timeout + pollInterval := by
  intro fuel
  induction fuel with
  | zero =>
    intro i h1 h2
    omega
  | succ f ih =>
    intro i h1 h2
    rw [waitLoopAux, hpoll i]
    by_cases hto : pollInterval * i > timeout
    · exact ⟨i, by simp [hto], hto, h1⟩
    · have hrec := ih (i + 1) (by simp [pollInterval] at *; omega)
        (by simp [pollInterval] at *; omega)
      obtain ⟨j, hj, hj1, hj2⟩ := hrec
      refine ⟨j, ?_, hj1, hj2⟩
      simp only [hto]
      simpa using hj

/-- C6: the poll protocol takes its timeout as an externally supplied
argument; under a poll function that always reports not-complete with
no error it sleeps the fixed initial delay, then polls at the fixed
interval, and returns the timed-out error (carrying the configured
timeout) at the first poll instant strictly past the timeout — at or
just after the timeout elapses, and never before it. -/
theorem waitForResult_timeout_boundary (timeout : Nat)
    (poll : Nat → Bool × Option GoError) (hpoll : ∀ i, poll i = (false, none)) :
    ∃ j, waitForResult timeout poll = .failed (.timedOut timeout) j ∧
      timeout < pollInterval * j ∧ pollInterval * j ≤ timeout + pollInterval := by
  apply waitLoopAux_neverDone timeout poll hpoll (timeout / pollInterval + 2) 0
  · simp [pollInterval]
  · simp only [pollInterval]
    omega

/-- C6 witness: with a configured timeout of 10 seconds the loop fails
with the timed-out error at a poll instant in the interval (10, 13]. -/
theorem waitForResult_timeout_boundary_witness :
    ∃ j, waitForResult 10 (fun _ => (false, none)) = .failed (.timedOut 10) j ∧
      10 < pollInterval * j ∧ pollInterval * j ≤ 10 + pollInterval :=
  waitForResult_timeout_boundary 10 (fun _ => (false, none)) (fun _ => rfl)

/-- C9 counterexample: a poll response carrying the completion flag
together with the operation result ELECTRIC_WAVE_ABNORMAL makes
`CheckUpdate` return the update-failed error, but the poll protocol
checks the completion flag first and reports plain success, discarding
the failure — the `ErrUpdateFailed` the claim requires never reaches the
caller. -/
theorem checkUpdate_ewa_swallowed_counterexample :
    (checkUpdateStep (.ok (1, electricWaveAbnormal))).2 = some .updateFailed ∧
    waitForResult 60 (fun _ => checkUpdateStep (.ok (1, electricWaveAbnormal))) =
      .success 0 := by
  constructor
  · rfl
  · rfl

/-- C9 amended: `CheckUpdate` flags ELECTRIC_WAVE_ABNORMAL as the
distinct update-failed error; the poll protocol reports that error to
its caller on the first poll when the completion flag of the response is not
set, but when the completion flag is set the done check takes
precedence and the protocol reports success, discarding the failure. -/
theorem checkUpdate_ewa_reported (flag : Int) (opRes : String) (timeout : Nat)
    (hop : opRes = electricWaveAbnormal) :
    (checkUpdateStep (.ok (flag, opRes))).2 = some .updateFailed ∧
    (flag ≠ 1 →
      waitForResult timeout (fun _ => checkUpdateStep (.ok (flag, opRes))) =
        .failed .updateFailed 0) ∧
    (flag = 1 →
      waitForResult timeout (fun _ => checkUpdateStep (.ok (flag, opRes))) =
        .success 0) := by
  subst hop
  refine ⟨by simp [checkUpdateStep], ?_, ?_⟩
  · intro hflag
    unfold waitForResult
    rw [show timeout / pollInterval + 2 = (timeout / pollInterval + 1) + 1 from rfl]
    rw [waitLoopAux]
    simp only [checkUpdateStep, if_pos rfl]
    have hdone : (decide (flag = 1)) = false := by simp [hflag]
    simp only [hdone]
    have hnot : ¬(pollInterval * 0 > timeout) := by simp
    simp [hnot]
  · intro hflag
    subst hflag
    unfold waitForResult
    rw [show timeout / pollInterval + 2 = (timeout / pollInterval + 1) + 1 from rfl]
    rw [waitLoopAux]
    simp [checkUpdateStep]

/-- C9 amended witness: at flag 0 the failure is reported on the first
poll; the hypothesis is discharged at the literal operation result. -/
theorem checkUpdate_ewa_reported_witness :
    waitForResult 60 (fun _ => checkUpdateStep (.ok (0, electricWaveAbnormal))) =
      .failed .updateFailed 0 :=
  (checkUpdate_ewa_reported 0 electricWaveAbnormal 60 rfl).2.1 (by decide)

/-! ### Base64 and block-cipher length lemmas -/

theorem getD_ne_of_not_mem {l : List Char} {x d : Char} (hl : x ∉ l) (hd : d ≠ x) :
    ∀ m, l.getD m d ≠ x := by
  intro m
  induction l generalizing m with
  | nil => simpa [List.getD] using hd
  | cons c cs ih =>
    cases m with
    | zero =>
      simp only [List.getD_cons_zero]
      exact fun h => hl (h ▸ List.mem_cons_self c cs)
    | succ m =>
      simp only [List.getD_cons_succ]
      exact ih (fun h => hl (List.mem_cons_of_mem c h)) m

theorem b64Char_ne_pad (n : Nat) : b64Char n ≠ '=' :=
  getD_ne_of_not_mem (by decide) (by decide) n

theorem base64Encode_length (x : List Nat) :
    (base64Encode x).length = 4 * ((x.length + 2) / 3) := by
  induction x using base64Encode.induct with
  | case1 => rfl
  | case2 a => simp [base64Encode]
  | case3 a b => simp [base64Encode]
  | case4 a b c rest ih =>
    rw [base64Encode]
    simp only [List.length_append, List.length_cons, List.length_nil, ih]
    omega

theorem base64Encode_count_pad (x : List Nat) :
    (base64Encode x).count '=' = (3 - x.length % 3) % 3 := by
  induction x using base64Encode.induct with
  | case1 => rfl
  | case2 a =>
    simp [base64Encode, List.count_cons, b64Char_ne_pad]
  | case3 a b =>
    simp [base64Encode, List.count_cons, b64Char_ne_pad]
  | case4 a b c rest ih =>
    rw [base64Encode]
    rw [List.count_append, ih]
    simp only [List.length_cons]
    have hz : ([b64Char (a / 4 % 64), b64Char ((a % 4 * 16 + b / 16) % 64),
        b64Char ((b % 16 * 4 + c / 64) % 64), b64Char (c % 64)] : List Char).count '=' = 0 := by
      simp [List.count_cons, b64Char_ne_pad]
    rw [hz]
    omega

theorem base64DecodedLength_encode (x : List Nat) :
    base64DecodedLength (base64Encode x) = x.length := by
  unfold base64DecodedLength
  rw [base64Encode_length, base64Encode_count_pad]
  omega

theorem ecbEncrypt_length (E : List Nat → List Nat)
    (hE : ∀ b : List Nat, b.length = 8 → (E b).length = 8) :
    ∀ src : List Nat, src.length % 8 = 0 → (ecbEncrypt E src).length = src.length := by
  have main : ∀ n (src : List Nat), src.length ≤ n → src.length % 8 = 0 →
      (ecbEncrypt E src).length = src.length := by
    intro n
    induction n with
    | zero =>
      intro src hlen h8
      have hnil : src = [] := List.eq_nil_of_length_eq_zero (Nat.le_zero.mp hlen)
      subst hnil
      rw [ecbEncrypt]
    | succ n ih =>
      intro src hlen h8
      match src with
      | [] => rw [ecbEncrypt]
      | b :: rest =>
        simp only [List.length_cons] at hlen h8
        have hlen8 : 8 ≤ rest.length + 1 := by omega
        rw [ecbEncrypt, List.length_append]
        have htake : ((b :: rest).take blowfishBlockSize).length = 8 := by
          simp only [blowfishBlockSize, List.length_take, List.length_cons]
          omega
        have hdrop : ((b :: rest).drop blowfishBlockSize).length = rest.length + 1 - 8 := by
          simp [blowfishBlockSize]
        rw [hE _ htake, ih ((b :: rest).drop blowfishBlockSize)
          (by rw [hdrop]; omega) (by rw [hdrop]; omega), hdrop, List.length_cons]
        omega
  intro src
  exact main src.length src (le_refl _)

/-- C5: for every key of valid Blowfish key length (1..56 bytes) and
every plaintext — including plaintexts already a multiple of the block
size, which gain one full padding block — `encrypt` succeeds, the
padding appends between 1 and 8 bytes whose value equals the number of
bytes appended, and the base64 output decodes to a non-zero multiple of
the 8-byte cipher block size. -/
theorem encrypt_padding_blocks (E : List Nat → List Nat)
    (hE : ∀ b : List Nat, b.length = 8 → (E b).length = 8)
    (keyLen : Nat) (hk : 1 ≤ keyLen ∧ keyLen ≤ 56) (s : List Nat) :
    ∃ out padLen,
      encrypt E keyLen s = some out ∧
      padLen = blowfishBlockSize - s.length % blowfishBlockSize ∧
      1 ≤ padLen ∧ padLen ≤ blowfishBlockSize ∧
      pkcs5Padding s blowfishBlockSize = s ++ List.replicate padLen padLen ∧
      base64DecodedLength out = s.length + padLen ∧
      base64DecodedLength out % blowfishBlockSize = 0 ∧
      0 < base64DecodedLength out := by
  have hkeyok : blowfishKeyOk keyLen = true := by
    simp only [blowfishKeyOk, Bool.and_eq_true, decide_eq_true_eq]
    exact hk
  refine ⟨base64Encode (ecbEncrypt E (pkcs5Padding s blowfishBlockSize)),
    blowfishBlockSize - s.length % blowfishBlockSize, ?_, rfl, ?_, ?_, rfl, ?_, ?_, ?_⟩
  · simp [encrypt, hkeyok]
  · simp only [blowfishBlockSize]
    omega
  · simp only [blowfishBlockSize]
    omega
  all_goals
    have hpadlen : (pkcs5Padding s blowfishBlockSize).length =
        s.length + (blowfishBlockSize - s.length % blowfishBlockSize) := by
      simp [pkcs5Padding]
    have hmod : (pkcs5Padding s blowfishBlockSize).length % 8 = 0 := by
      rw [hpadlen]
      simp only [blowfishBlockSize]
      omega
    rw [base64DecodedLength_encode, ecbEncrypt_length E hE _ hmod, hpadlen]
  · simp only [blowfishBlockSize]
    omega
  · simp only [blowfishBlockSize]
    omega

/-- C5 witness: with a 16-byte key and an 8-byte plaintext (already a
block multiple) the padding is one full block of bytes valued 8 and the
decoded output length is 16. -/
theorem encrypt_padding_blocks_witness :
    ∃ out padLen,
      encrypt (fun b => b) 16 [1, 2, 3, 4, 5, 6, 7, 8] = some out ∧
      padLen = blowfishBlockSize - ([1, 2, 3, 4, 5, 6, 7, 8] : List Nat).length % blowfishBlockSize ∧
      1 ≤ padLen ∧ padLen ≤ blowfishBlockSize ∧
      pkcs5Padding [1, 2, 3, 4, 5, 6, 7, 8] blowfishBlockSize =
        [1, 2, 3, 4, 5, 6, 7, 8] ++ List.replicate padLen padLen ∧
      base64DecodedLength out = ([1, 2, 3, 4, 5, 6, 7, 8] : List Nat).length + padLen ∧
      base64DecodedLength out % blowfishBlockSize = 0 ∧
      0 < base64DecodedLength out :=
  encrypt_padding_blocks (fun b => b) (fun _ hb => hb) 16 (by decide) [1, 2, 3, 4, 5, 6, 7, 8]

/-! ### Timestamp decoding -/

theorem goQuoteChar_flatten (l : List Char) (h : ∀ c ∈ l, c ≠ '"' ∧ c ≠ '\\') :
    (l.map goQuoteChar).flatten = l := by
  induction l with
  | nil => rfl
  | cons c cs ih =>
    have hc := h c (List.mem_cons_self c cs)
    simp only [List.map_cons, List.flatten_cons]
    rw [ih (fun x hx => h x (List.mem_cons_of_mem c hx))]
    simp [goQuoteChar, hc.1, hc.2]

/-- C4: `cwTime.UnmarshalJSON` tries the five known raw formats in its
fixed priority order (slash-delimited minute precision, space-delimited
second precision, ISO-8601 with trailing Z, ISO-8601 without trailing
Z, human month-name), returning the instant of the first format that
matches; the empty JSON string decodes to the absent sentinel with no
error; and an input matching no format yields an error whose text
embeds the offending raw value. -/
theorem cwTime_unmarshal_formats :
    (cwTimeUnmarshal ['"', '"'] = .ok none) ∧
    (∀ data t, parseSlashMinute data = some t → cwTimeUnmarshal data = .ok (some t)) ∧
    (∀ data t, parseSlashMinute data = none → parseSpaceSecond data = some t →
      cwTimeUnmarshal data = .ok (some t)) ∧
    (∀ data t, parseSlashMinute data = none → parseSpaceSecond data = none →
      parseIsoZ data = some t → cwTimeUnmarshal data = .ok (some t)) ∧
    (∀ data t, parseSlashMinute data = none → parseSpaceSecond data = none →
      parseIsoZ data = none → parseIsoNoZ data = some t →
      cwTimeUnmarshal data = .ok (some t)) ∧
    (∀ data t, parseSlashMinute data = none → parseSpaceSecond data = none →
      parseIsoZ data = none → parseIsoNoZ data = none →
      parseMonthNameFormat data = some t → cwTimeUnmarshal data = .ok (some t)) ∧
    (∀ data, data ≠ ['"', '"'] → parseSlashMinute data = none →
      parseSpaceSecond data = none → parseIsoZ data = none → parseIsoNoZ data = none →
      parseMonthNameFormat data = none →
      cwTimeUnmarshal data = .error (cwTimeParseError data)) ∧
    (∀ inner, (∀ c ∈ inner, c ≠ '"' ∧ c ≠ '\\') →
      ∃ pre suf, cwTimeParseError ('"' :: inner ++ ['"']) = pre ++ (inner ++ suf)) := by
  refine ⟨rfl, ?_, ?_, ?_, ?_, ?_, ?_, ?_⟩
  · intro data t h1
    have hne : data ≠ ['"', '"'] := by
      intro hd
      rw [hd, show parseSlashMinute ['"', '"'] = none from rfl] at h1
      exact Option.noConfusion h1
    unfold cwTimeUnmarshal
    rw [if_neg hne, h1]
  · intro data t h1 h2
    have hne : data ≠ ['"', '"'] := by
      intro hd
      rw [hd, show parseSpaceSecond ['"', '"'] = none from rfl] at h2
      exact Option.noConfusion h2
    unfold cwTimeUnmarshal
    rw [if_neg hne, h1, h2]
  · intro data t h1 h2 h3
    have hne : data ≠ ['"', '"'] := by
      intro hd
      rw [hd, show parseIsoZ ['"', '"'] = none from rfl] at h3
      exact Option.noConfusion h3
    unfold cwTimeUnmarshal
    rw [if_neg hne, h1, h2, h3]
  · intro data t h1 h2 h3 h4
    have hne : data ≠ ['"', '"'] := by
      intro hd
      rw [hd, show parseIsoNoZ ['"', '"'] = none from rfl] at h4
      exact Option.noConfusion h4
    unfold cwTimeUnmarshal
    rw [if_neg hne, h1, h2, h3, h4]
  · intro data t h1 h2 h3 h4 h5
    have hne : data ≠ ['"', '"'] := by
      intro hd
      rw [hd, show parseMonthNameFormat ['"', '"'] = none from rfl] at h5
      exact Option.noConfusion h5
    unfold cwTimeUnmarshal
    rw [if_neg hne, h1, h2, h3, h4, h5]
  · intro data hne h1 h2 h3 h4 h5
    unfold cwTimeUnmarshal
    rw [if_neg hne, h1, h2, h3, h4, h5]
  · intro inner h
    refine ⟨"cannot parse ".toList ++ ['"', '\\', '"'],
      ['\\', '"', '"'] ++ " as carwings time".toList, ?_⟩
    unfold cwTimeParseError goQuote
    simp only [List.map_cons, List.map_append, List.map_nil, List.flatten_cons,
      List.flatten_append, List.flatten_nil]
    rw [goQuoteChar_flatten inner h]
    simp [goQuoteChar]

/-- C4 witness: the five known formats each decode to the expected
instant, the empty JSON string yields the absent sentinel, and an
unmatched input yields an error embedding the raw content. -/
theorem cwTime_unmarshal_formats_witness :
    cwTimeUnmarshal "\"2016\\/02\\/10 01:00\"".toList = .ok (some ⟨2016, 2, 10, 1, 0, 0⟩) ∧
    cwTimeUnmarshal "\"2016-02-10 01:00:00\"".toList = .ok (some ⟨2016, 2, 10, 1, 0, 0⟩) ∧
    cwTimeUnmarshal "\"2018-08-04T15:08:33Z\"".toList = .ok (some ⟨2018, 8, 4, 15, 8, 33⟩) ∧
    cwTimeUnmarshal "\"2018-08-05T10:18:47\"".toList = .ok (some ⟨2018, 8, 5, 10, 18, 47⟩) ∧
    cwTimeUnmarshal "\"Feb  9, 2016 05:39 PM\"".toList = .ok (some ⟨2016, 2, 9, 17, 39, 0⟩) ∧
    cwTimeUnmarshal "\"\"".toList = .ok none ∧
    cwTimeUnmarshal "\"bogus\"".toList = .error (cwTimeParseError "\"bogus\"".toList) ∧
    (∃ pre suf, cwTimeParseError "\"bogus\"".toList = pre ++ ("bogus".toList ++ suf)) := by
  have h := cwTime_unmarshal_formats
  refine ⟨?_, ?_, ?_, ?_, ?_, h.1, ?_, ?_⟩
  · exact h.2.1 _ _ (by decide)
  · exact h.2.2.1 _ _ (by decide) (by decide)
  · exact h.2.2.2.1 _ _ (by decide) (by decide) (by decide)
  · exact h.2.2.2.2.1 _ _ (by decide) (by decide) (by decide) (by decide)
  · exact h.2.2.2.2.2.1 _ _ (by decide) (by decide) (by decide) (by decide) (by decide)
  · exact h.2.2.2.2.2.2.1 _ (by decide) (by decide) (by decide) (by decide) (by decide)
      (by decide)
  · exact h.2.2.2.2.2.2.2 "bogus".toList (by decide)

/-- C7 counterexample: the `load` of the current revision performs no
validation, so `Connect` adopts a persisted record holding a populated
session token and an empty vehicle identifier as-is — it returns
successfully with a partial identity instead of falling through to a
full login (whose transport here would have produced the VIN VINX). -/
theorem load_partial_identity_counterexample :
    connectLoadOrLogin true (some exPartialRec) (.resp 200 "" exGoodLoginBody) exSession =
      .ok exPartialLoaded ∧
    exPartialLoaded.vin = "" ∧
    exPartialLoaded.customSessionID = "X" := by
  exact ⟨by decide, by decide, by decide⟩

/-- C7 amended: the validity gate exists only in the previous
revision, whose `Connect` adopts a loaded record exactly when both
the session token and the vehicle identifier are non-empty and
otherwise falls through to the full login path; the `load` of the
current revision adopts whatever the file holds, relying on the
authentication-expired retry of the next request to recover. -/
theorem connectPrev_partial_identity_rejected (rec : LoadRec) (st : SessionSt)
    (fallback : SessionSt → Except GoError SessionSt) (e : ExchangeResult) :
    (rec.vin = "" →
      connectPrevRevision (some rec) st fallback =
        fallback { st with vin := rec.vin, customSessionID := rec.customSessionID,
                           tz := rec.tz }) ∧
    (rec.customSessionID ≠ "" → rec.vin ≠ "" →
      connectPrevRevision (some rec) st fallback =
        .ok { st with vin := rec.vin, customSessionID := rec.customSessionID,
                      tz := rec.tz }) ∧
    (connectLoadOrLogin true (some rec) e st =
      .ok { st with vin := rec.vin, customSessionID := rec.customSessionID,
                    tz := rec.tz }) := by
  refine ⟨?_, ?_, rfl⟩
  · intro hvin
    simp only [connectPrevRevision, sessionLoad]
    split_ifs with hcon
    · exact absurd hvin hcon.2
    · rfl
  · intro hsid hvin
    simp only [connectPrevRevision, sessionLoad]
    split_ifs with hcon
    · rfl
    · exact absurd ⟨hsid, hvin⟩ hcon

/-- C7 amended witness: the gate of the previous revision sends the partial
record to the login fallback, and with both fields populated it adopts
the record. -/
theorem connectPrev_partial_identity_rejected_witness :
    connectPrevRevision (some exPartialRec) exSession (fun _ => .error .vehicleInfoUnavailable) =
      .error .vehicleInfoUnavailable ∧
    connectPrevRevision (some ⟨"VINX", "SIDX", "UTC"⟩) exSession
        (fun _ => .error .vehicleInfoUnavailable) =
      .ok exSessionAfterLogin := by
  constructor
  · exact (connectPrev_partial_identity_rejected exPartialRec exSession
      (fun _ => .error .vehicleInfoUnavailable) .netErr).1 (by decide)
  · have h := (connectPrev_partial_identity_rejected ⟨"VINX", "SIDX", "UTC"⟩ exSession
      (fun _ => .error .vehicleInfoUnavailable) .netErr).2.1 (by decide) (by decide)
    rw [h]
    decide

/-- C8 counterexample: a login body whose first shape is a non-empty
list carrying an empty vehicle identifier, while the second shape holds
a non-empty one, makes `Login` fail with the vehicle-info-unavailable
error — the decoder selects by shape population, not by the first
non-empty vehicle identifier. -/
theorem login_first_nonempty_vin_counterexample :
    loginStep (.resp 200 "" exShadowedBody) exSession = .error .vehicleInfoUnavailable ∧
    exShadowedBody.vehicleInfoListInfos.map (fun vi => vi.vin) = ["V"] := by
  exact ⟨by decide, by decide⟩

/-- C8 amended: `Login` checks the known vehicle-info shapes in a fixed
order but selects from the first populated shape (non-empty list for
the first two, non-empty VIN for the CustomerInfo shape, else the flat
shape); if the VIN of the selected candidate is empty, `Login` fails with
the vehicle-info-unavailable error even when a later shape holds a
non-empty VIN; in particular a VIN empty across all shapes always
fails, and a non-empty selected VIN is adopted. -/
theorem login_shape_selection (b : LoginBody) :
    (b.vehicleInfos ≠ [] → selectVehicleInfo b = b.vehicleInfos.headD default) ∧
    (b.vehicleInfos = [] → b.vehicleInfoListInfos ≠ [] →
      selectVehicleInfo b = b.vehicleInfoListInfos.headD default) ∧
    (b.vehicleInfos = [] → b.vehicleInfoListInfos = [] →
      0 < b.customerInfoVehicleInfo.vin.length →
      selectVehicleInfo b = b.customerInfoVehicleInfo) ∧
    (b.vehicleInfos = [] → b.vehicleInfoListInfos = [] →
      b.customerInfoVehicleInfo.vin.length = 0 →
      selectVehicleInfo b = b.vehicleInfo) ∧
    (∀ st : SessionSt, (selectVehicleInfo b).vin = "" →
      loginStep (.resp 200 "" b) st = .error .vehicleInfoUnavailable) ∧
    (∀ st : SessionSt, (selectVehicleInfo b).vin ≠ "" →
      loginStep (.resp 200 "" b) st =
        .ok { st with customSessionID := (selectVehicleInfo b).customSessionID,
                      vin := (selectVehicleInfo b).vin,
                      tz := b.customerInfoTimezone }) := by
  refine ⟨?_, ?_, ?_, ?_, ?_, ?_⟩
  · intro h1
    unfold selectVehicleInfo
    rw [if_pos (List.length_pos.mpr h1)]
  · intro h1 h2
    unfold selectVehicleInfo
    rw [if_neg (by simp [h1]), if_pos (List.length_pos.mpr h2)]
  · intro h1 h2 h3
    unfold selectVehicleInfo
    rw [if_neg (by simp [h1]), if_neg (by simp [h2]), if_pos h3]
  · intro h1 h2 h3
    unfold selectVehicleInfo
    rw [if_neg (by simp [h1]), if_neg (by simp [h2]), if_neg (by simp [h3])]
  · intro st hvin
    simp only [loginStep, show classifyExchange (.resp 200 "" b) = .ok b from rfl]
    rw [if_pos hvin]
  · intro st hvin
    simp only [loginStep, show classifyExchange (.resp 200 "" b) = .ok b from rfl]
    rw [if_neg hvin]

/-- C8 amended witness: the populated first shape is selected and
adopted, and an all-empty body fails with the
vehicle-info-unavailable error. -/
theorem login_shape_selection_witness :
    selectVehicleInfo exGoodLoginBody = ⟨"VINX", "SIDX"⟩ ∧
    loginStep (.resp 200 "" exEmptyBody) exSession = .error .vehicleInfoUnavailable ∧
    loginStep (.resp 200 "" exGoodLoginBody) exSession = .ok exSessionAfterLogin := by
  refine ⟨?_, ?_, ?_⟩
  · have h := (login_shape_selection exGoodLoginBody).1 (by decide)
    rw [h]
    decide
  · exact (login_shape_selection exEmptyBody).2.2.2.2.1 exSession (by decide)
  · have h := (login_shape_selection exGoodLoginBody).2.2.2.2.2 exSession (by decide)
    rw [h]
    decide

end Carwings
